/-
Verification of the beam-analysis app (`app.py`).

The app performs 2D beam calculations: it builds an anastruct
`SystemElements` model from tabular input (nodes, supports, point loads,
distributed loads), solves it, and evaluates a bending-moment unity check
against the allowable bending moment of a steel profile from a CSV catalog.

Shallow embedding conventions:
* Real-number quantities are modelled with `ℚ` (the Python code uses
  floats; all arithmetic involved in the claims is exact on the inputs
  considered, and decimal literals such as `9.81` denote exact rationals).
* The profile CSV for the selected family is modelled as a
  `List ProfileRow` in file order; pandas
  `df.loc[df["Profile"] == profile, col].item()` (which raises unless the
  selection has exactly one entry) is modelled by `get_profile_property`
  returning `Option`.
* The anastruct solver (`ss.solve()` and
  `ss.get_element_result_range("moment")`) is an external library; it is
  modelled as an abstract `Solver : SystemElements → Option SolvedState`
  parameter, where `none` models `solve()` raising and `SolvedState`
  carries the list of sampled bending-moment results.
* Exceptions are modelled with `Except AppError`; `UserError` raised by
  `create_model` becomes `AppError.userError msg`.
-/
import Mathlib

set_option maxRecDepth 100000

namespace BeamApp

/-- One row of the steel-profile CSV for a profile family: name,
second moment of area (x10^6 mm^4), depth (mm), weight (kg/m). -/
structure ProfileRow where
  name : String
  second_moment_of_area : ℚ
  depth : ℚ
  weight : ℚ
deriving DecidableEq, Repr

/-- Models `df.loc[sel, col].item()`: succeeds only when the selection holds
exactly one row. -/
def itemOf (l : List ℚ) : Option ℚ :=
  match l with
  | [x] => some x
  | _ => none

/-- Embeds `Controller.get_profile_property`: select the rows whose `Profile`
column equals `profile` and extract the requested property with `.item()`. -/
def get_profile_property (catalog : List ProfileRow) (profile : String)
    (property : ProfileRow → ℚ) : Option ℚ :=
  itemOf ((catalog.filter (fun r => r.name == profile)).map property)

/-- Embeds `get_profile_types`: the `Profile` column of the family's CSV, in file
order. -/
def get_profile_types (catalog : List ProfileRow) : List String :=
  catalog.map (fun r => r.name)

/-- Models `float(steel_class[-3:])`: the number formed by the last three
characters of the steel class label ("S235" → 235). The slice `[-3:]` is
the last `min 3 (length)` characters; `float` succeeds on the supported
labels exactly when those characters are all digits (`none` models
`float` raising on anything else). -/
def yield_strength_of (steel_class : String) : Option ℚ :=
  let chars := steel_class.data.drop (steel_class.data.length - 3)
  if chars.isEmpty || !chars.all Char.isDigit then none
  else some ((chars.foldl (fun n c => 10 * n + (c.toNat - 48)) 0 : ℕ) : ℚ)

/-- The elastic section-modulus capacity formula of
`calculate_allowable_bending_moment` (line 351):
`(yield_strength * moment_of_inertia) / (profile_height / 2)`. -/
def allowableBMFormula (yield_strength moment_of_inertia profile_height : ℚ) : ℚ :=
  yield_strength * moment_of_inertia / (profile_height / 2)

/-- The unity-check expression `abs(max_moment / allowable_bending_moment)`
used at lines 176 and 240. -/
def unityCheck (max_moment allowable_bending_moment : ℚ) : ℚ :=
  |max_moment / allowable_bending_moment|

/-- Return dict of `Controller.calculate_allowable_bending_moment`. -/
structure AllowableBM where
  moment_of_inertia : ℚ
  profile_height : ℚ
  yield_strength : ℚ
  allowable_bending_moment : ℚ
deriving DecidableEq, Repr

/-- Embeds `Controller.calculate_allowable_bending_moment`: look up the second
moment of area and the depth of the profile, parse the yield strength from
the steel class label, and form the allowable bending moment. -/
def calculate_allowable_bending_moment (catalog : List ProfileRow)
    (profile steel_class : String) : Option AllowableBM :=
  match get_profile_property catalog profile ProfileRow.second_moment_of_area,
      get_profile_property catalog profile ProfileRow.depth,
      yield_strength_of steel_class with
  | some moment_of_inertia, some profile_height, some yield_strength =>
    some { moment_of_inertia := moment_of_inertia
           profile_height := profile_height
           yield_strength := yield_strength
           allowable_bending_moment :=
             (yield_strength * moment_of_inertia) / (profile_height / 2) }
  | _, _, _ => none

/-- A row of the Nodes input table: position in meters. -/
structure NodeIn where
  x : ℚ
  y : ℚ
deriving DecidableEq, Repr

/-- The three support types offered by the Supports table. -/
inductive SupportKind where
  | Fixed
  | Hinged
  | Roll
deriving DecidableEq, Repr

/-- A row of the Supports input table (`node_id` already parsed by `int`). -/
structure SupportIn where
  node_id : ℕ
  type : SupportKind
deriving DecidableEq, Repr

/-- A row of the Point loads input table. -/
structure PointLoadIn where
  node_id : ℕ
  fx : ℚ
  fy : ℚ
deriving DecidableEq, Repr

/-- A row of the Distributed loads input table. -/
structure QLoadIn where
  element_id : ℕ
  q : ℚ
deriving DecidableEq, Repr

/-- The `params.input` tab of the parametrization. -/
structure ParamsInput where
  nodes : List NodeIn
  supports : List SupportIn
  point_loads : List PointLoadIn
  distributed_loads : List QLoadIn
  profile_type : String
  profile : String
  steel_class : String
  include_weight : Bool
deriving DecidableEq, Repr

/-- An anastruct element as added by `ss.add_element(location=..., g=...)`:
it spans two node locations and carries the system flexural rigidity `EI`
and the distributed self-weight `g`. -/
structure ElementIn where
  loc1 : NodeIn
  loc2 : NodeIn
  EI : ℚ
  g : ℚ
deriving DecidableEq, Repr

/-- A support registered on the anastruct system
(`add_support_fixed` / `add_support_hinged` / `add_support_roll`). -/
inductive AppliedSupport where
  | fixed (node_id : ℕ)
  | hinged (node_id : ℕ)
  | roll (node_id : ℕ) (direction : ℕ)
deriving DecidableEq, Repr

/-- A nodal load registered by `ss.point_load`. -/
structure AppliedPointLoad where
  node_id : ℕ
  Fx : ℚ
  Fy : ℚ
deriving DecidableEq, Repr

/-- A distributed load registered by `ss.q_load`. -/
structure AppliedQLoad where
  q : ℚ
  element_id : ℕ
  direction : String
deriving DecidableEq, Repr

/-- The anastruct `SystemElements` model as built by `create_model`. -/
structure SystemElements where
  EI : ℚ
  elements : List ElementIn
  supports : List AppliedSupport
  point_loads : List AppliedPointLoad
  q_loads : List AppliedQLoad
deriving DecidableEq, Repr

/-- Errors a request can raise: a pandas lookup failure
(`.item()` or `float()` raising), the `UserError` raised by `create_model`,
and `max()` over an empty sequence. -/
inductive AppError where
  | lookupFailure
  | userError (msg : String)
  | maxOfEmpty
deriving DecidableEq, Repr

/-- Embeds `Controller.create_model` without the solve step: compute `EI` from the
profile's second moment of area, the self-weight from the profile's weight
when `include_weight` is set, then add one element per consecutive node
pair, the supports, the point loads and the distributed loads. -/
def create_model (catalog : List ProfileRow) (params : ParamsInput) :
    Except AppError SystemElements :=
  let youngs_modulus : ℚ := 210000 * 10 ^ 3
  match get_profile_property catalog params.profile ProfileRow.second_moment_of_area with
  | none => .error .lookupFailure
  | some raw_inertia =>
    let moment_of_inertia := raw_inertia / 10 ^ 6
    match (if params.include_weight then
        (get_profile_property catalog params.profile ProfileRow.weight).map
          (fun w => w * 9.81 / 1000)
      else some 0) with
    | none => .error .lookupFailure
    | some weight =>
      .ok { EI := youngs_modulus * moment_of_inertia
            elements :=
              (params.nodes.zip params.nodes.tail).map
                (fun ab => { loc1 := ab.1, loc2 := ab.2
                             EI := youngs_modulus * moment_of_inertia, g := weight })
            supports :=
              params.supports.map (fun s =>
                match s.type with
                | .Fixed => .fixed s.node_id
                | .Hinged => .hinged s.node_id
                | .Roll => .roll s.node_id 2)
            point_loads :=
              params.point_loads.map (fun p =>
                { node_id := p.node_id, Fx := p.fx, Fy := p.fy })
            q_loads :=
              params.distributed_loads.map (fun d =>
                { q := d.q, element_id := d.element_id, direction := "element" }) }

/-- The solved model: `ss.get_element_result_range("moment")`, the sampled
bending-moment results used downstream. -/
structure SolvedState where
  moment_range : List ℚ
deriving DecidableEq, Repr

/-- The external anastruct solver: `none` models `ss.solve()` raising. -/
abbrev Solver := SystemElements → Option SolvedState

/-- The `UserError` message raised when `ss.solve()` fails. -/
def unstableMsg : String :=
  "Calculation cannot be solved, probably because the structure is unstable. Check the supports."

/-- Embeds `Controller.create_model` with `solve_model=True`: build the model,
then solve it, turning any solver exception into the `UserError`. -/
def create_model_solved (solver : Solver) (catalog : List ProfileRow)
    (params : ParamsInput) : Except AppError (SystemElements × SolvedState) :=
  match create_model catalog params with
  | .error e => .error e
  | .ok ss =>
    match solver ss with
    | none => .error (.userError unstableMsg)
    | some st => .ok (ss, st)

/-- Python `max(xs, key=abs)` on a nonempty sequence: keep the current
best and replace it when a strictly larger absolute value appears. -/
def pyMaxAbs (x : ℚ) (xs : List ℚ) : ℚ :=
  xs.foldl (fun cur y => if |cur| < |y| then y else cur) x

/-- Models `abs(max(range, key=abs))` on the moment result range; `none` models
`max()` raising on an empty sequence. -/
def maxAbsMoment : List ℚ → Option ℚ
  | [] => none
  | x :: xs => some |pyMaxAbs x xs|

/-- The maximum absolute value over a list of samples (the quantity the
spec calls the maximum demand moment). -/
def maxAbsOf (l : List ℚ) : ℚ :=
  (l.map (fun x => |x|)).foldl max 0

/-- The data shown by the bending-moment view: the maximum bending moment,
the allowable-bending-moment results, the unity check, and whether the
status is `DataStatus.SUCCESS` (`uc < 1`) rather than `DataStatus.ERROR`. -/
structure BendingMomentView where
  max_moment : ℚ
  results : AllowableBM
  uc : ℚ
  passed : Bool
deriving DecidableEq, Repr

/-- Embeds `Controller.show_bending_moments` (its computation, with rendering
dropped): solve the model, take the maximum-absolute sampled moment,
compute the allowable bending moment and the unity check, and set the
status to success exactly when `uc < 1`. -/
def show_bending_moments (solver : Solver) (catalog : List ProfileRow)
    (params : ParamsInput) : Except AppError BendingMomentView :=
  match create_model_solved solver catalog params with
  | .error e => .error e
  | .ok (_, st) =>
    match maxAbsMoment st.moment_range with
    | none => .error .maxOfEmpty
    | some max_moment =>
      match calculate_allowable_bending_moment catalog params.profile params.steel_class with
      | none => .error .lookupFailure
      | some results =>
        let uc := |max_moment / results.allowable_bending_moment|
        .ok { max_moment := max_moment, results := results, uc := uc
              passed := decide (uc < 1) }

/-- Python `round(q, 2)`: round to two decimals, ties to even
(the float-representation error of CPython's `round` is not modelled). -/
def pyRound2 (q : ℚ) : ℚ :=
  let s := 100 * q
  let fl : ℤ := ⌊s⌋
  let frac := s - fl
  let r : ℤ :=
    if frac < 1 / 2 then fl
    else if 1 / 2 < frac then fl + 1
    else if fl % 2 = 0 then fl else fl + 1
  (r : ℚ) / 100

/-- The loop of `Controller.optimize_profile`: for each candidate profile
name, overwrite `params["input"]["profile"]`, rebuild and solve the model,
compute the unity check against the candidate's allowable bending moment,
and record `(profile, round(uc, 2))` when `uc < 1`. `steel_class` is the
local variable read from `params` before the loop. -/
def optimizeLoop (catalog : List ProfileRow) (solver : Solver)
    (steel_class : String) :
    List String → ParamsInput → List (String × ℚ) →
      Except AppError (ParamsInput × List (String × ℚ))
  | [], params, results => .ok (params, results)
  | profile :: rest, params, results =>
    let params1 := { params with profile := profile }
    match create_model_solved solver catalog params1 with
    | .error e => .error e
    | .ok (_, st) =>
      match maxAbsMoment st.moment_range with
      | none => .error .maxOfEmpty
      | some max_moment =>
        match calculate_allowable_bending_moment catalog profile steel_class with
        | none => .error .lookupFailure
        | some r =>
          let uc := |max_moment / r.allowable_bending_moment|
          optimizeLoop catalog solver steel_class rest params1
            (if uc < 1 then results ++ [(profile, pyRound2 uc)] else results)

/-- Embeds `Controller.optimize_profile`: iterate the loop over all profile names
of the family's catalog, starting from the caller's params (which the loop
mutates in place) and an empty result list. The returned pair is the
final state of the params object and the optimization results. -/
def optimize_profile (catalog : List ProfileRow) (solver : Solver)
    (params : ParamsInput) : Except AppError (ParamsInput × List (String × ℚ)) :=
  optimizeLoop catalog solver params.steel_class (get_profile_types catalog) params []

/-- Specification-side evaluation of one optimizer candidate, independent
of the threaded params state: the unity check obtained for `profile` from
the caller's input with only the profile field replaced. -/
def candidateUC (catalog : List ProfileRow) (solver : Solver)
    (params : ParamsInput) (profile : String) : Except AppError ℚ :=
  match create_model_solved solver catalog { params with profile := profile } with
  | .error e => .error e
  | .ok (_, st) =>
    match maxAbsMoment st.moment_range with
    | none => .error .maxOfEmpty
    | some max_moment =>
      match calculate_allowable_bending_moment catalog profile params.steel_class with
      | none => .error .lookupFailure
      | some r => .ok |max_moment / r.allowable_bending_moment|

deriving instance DecidableEq for Except

/-- A two-profile family catalog used for concrete witnesses (properties
shaped like the IPE family: name, I (x10^6 mm^4), depth (mm), weight (kg/m)). -/
def sampleCatalog : List ProfileRow :=
  [{ name := "IPE80", second_moment_of_area := 1, depth := 80, weight := 6 },
   { name := "IPE240", second_moment_of_area := 39, depth := 240, weight := 31 }]

/-- A concrete input: a 5 m simply-supported beam with a midspan-free load
layout, IPE240 initially selected, S235 steel, self-weight included. -/
def sampleParams : ParamsInput :=
  { nodes := [{ x := 0, y := 0 }, { x := 5, y := 0 }]
    supports := [{ node_id := 1, type := .Hinged }, { node_id := 2, type := .Roll }]
    point_loads := [{ node_id := 2, fx := 0, fy := -15 }]
    distributed_loads := []
    profile_type := "IPE"
    profile := "IPE240"
    steel_class := "S235"
    include_weight := true }

/-- A concrete solver stub returning one sampled moment value. -/
def sampleSolver : Solver := fun _ => some { moment_range := [-50] }

/-- The solved state `sampleSolver` reports. -/
def sampleState : SolvedState := { moment_range := [-50] }

/-- The model `create_model` builds from `sampleCatalog` and
`sampleParams` (EI = 210000e3 * 39e6mm4/1e6 = 8190; g = 31*9.81/1000). -/
def sampleModel : SystemElements :=
  { EI := 8190
    elements := [{ loc1 := { x := 0, y := 0 }, loc2 := { x := 5, y := 0 },
                   EI := 8190, g := 30411 / 100000 }]
    supports := [.hinged 1, .roll 2 2]
    point_loads := [{ node_id := 2, Fx := 0, Fy := -15 }]
    q_loads := [] }

/-- The allowable-bending-moment results for IPE240 / S235 in
`sampleCatalog`: 235 * 39 / (240 / 2) = 611/8. -/
def sampleAllowable : AllowableBM :=
  { moment_of_inertia := 39, profile_height := 240, yield_strength := 235
    allowable_bending_moment := 611 / 8 }

/-- The bending-moment view for the sample input: max moment 50,
uc = 50 / (611/8) = 400/611 < 1, status success. -/
def sampleView : BendingMomentView :=
  { max_moment := 50, results := sampleAllowable, uc := 400 / 611, passed := true }

/-- The per-candidate unity checks over `sampleCatalog` for the sample
input: IPE80 gives 50/(235/40) = 400/47 ≥ 1, IPE240 gives 400/611 < 1. -/
def sampleU : String → ℚ := fun p => if p == "IPE80" then 400 / 47 else 400 / 611

/-- The params object after the optimizer loop: profile overwritten with
the last catalog entry. -/
def sampleParamsFinal : ParamsInput :=
  { sampleParams with profile := "IPE240" }

/-- A solver stub that always fails, modelling a singular system. -/
def failingSolver : Solver := fun _ => none

/-- The sample catalog's profile list is nonempty. -/
lemma sample_profiles_ne : get_profile_types sampleCatalog ≠ [] := by
  with_unfolding_all decide

/- Helper lemmas. -/

/-- One step of Python `max(·, key=abs)` takes the absolute maximum. -/
lemma abs_ite_lt (c y : ℚ) : |if |c| < |y| then y else c| = max |c| |y| := by
  by_cases h : |c| < |y|
  · rw [if_pos h, max_eq_right (le_of_lt h)]
  · rw [if_neg h, max_eq_left (not_lt.1 h)]

/-- The absolute value of `pyMaxAbs` folds the maxima of absolute values. -/
lemma abs_pyMaxAbs (xs : List ℚ) : ∀ x : ℚ,
    |pyMaxAbs x xs| = (xs.map (fun y => |y|)).foldl max |x| := by
  induction xs with
  | nil => intro x; rfl
  | cons y ys ih =>
    intro x
    show |pyMaxAbs (if |x| < |y| then y else x) ys| = _
    rw [ih, abs_ite_lt, List.map_cons, List.foldl_cons]

/-- A fold of `max` only grows its seed. -/
lemma le_foldl_max (l : List ℚ) : ∀ a : ℚ, a ≤ l.foldl max a := by
  induction l with
  | nil => intro a; exact le_refl a
  | cons x xs ih =>
    intro a
    exact le_trans (le_max_left a x) (ih (max a x))

/-- Computing `maxAbsOf` on a nonempty list is the fold of absolute values from the
head. -/
lemma maxAbsOf_cons (x : ℚ) (xs : List ℚ) :
    maxAbsOf (x :: xs) = (xs.map (fun y => |y|)).foldl max |x| := by
  show (xs.map (fun y => |y|)).foldl max (max 0 |x|) = _
  rw [max_eq_right (abs_nonneg x)]

/-- Evaluating `abs(max(range, key=abs))` gives the maximum absolute sample. -/
lemma maxAbsMoment_eq_maxAbsOf (l : List ℚ) (h : l ≠ []) :
    maxAbsMoment l = some (maxAbsOf l) := by
  cases l with
  | nil => exact absurd rfl h
  | cons x xs =>
    show some |pyMaxAbs x xs| = some (maxAbsOf (x :: xs))
    rw [abs_pyMaxAbs, maxAbsOf_cons]

/-- `maxAbsOf` is nonnegative. -/
lemma maxAbsOf_nonneg (l : List ℚ) : 0 ≤ maxAbsOf l :=
  le_foldl_max (l.map (fun y => |y|)) 0

/-- Overwriting the profile field twice keeps only the last write. -/
lemma params_set_set (p : ParamsInput) (q r : String) :
    { ({ p with profile := q }) with profile := r } = { p with profile := r } := rfl

/-- Overwriting the profile field with its own value is the identity. -/
lemma params_set_self (p : ParamsInput) : { p with profile := p.profile } = p := rfl

/-- Taking `getLastD` of a nonempty list is its last element. -/
lemma getLastD_eq_getLast (l : List String) (h : l ≠ []) (d : String) :
    l.getLastD d = l.getLast h := by
  cases l with
  | nil => exact absurd rfl h
  | cons x xs => rw [List.getLastD_cons, List.getLast_eq_getLastD]

/-- The model built from the sample catalog and input. -/
lemma sample_create_model : create_model sampleCatalog sampleParams = .ok sampleModel := by
  simp only [create_model, get_profile_property, itemOf, sampleCatalog, sampleParams,
    sampleModel, List.filter, List.map, List.zip, List.zipWith, List.tail]
  norm_num

/- Claim theorems. -/

/-- C2: for every profile with catalog properties (moment of inertia `I0`,
depth `d`) and every steel-class label whose yield strength parses from its
last three characters as `fy`, the allowable bending moment equals
`fy * I0 / (d / 2)`, with no partial-safety or plasticity factor applied,
and the returned sub-values are exactly the catalog `I0`, the catalog `d`
and the parsed `fy`. -/
theorem calculate_allowable_bending_moment_spec (catalog : List ProfileRow)
    (profile steel_class : String) (I0 d fy : ℚ)
    (hI : get_profile_property catalog profile ProfileRow.second_moment_of_area = some I0)
    (hd : get_profile_property catalog profile ProfileRow.depth = some d)
    (hfy : yield_strength_of steel_class = some fy) :
    calculate_allowable_bending_moment catalog profile steel_class =
      some { moment_of_inertia := I0, profile_height := d, yield_strength := fy
             allowable_bending_moment := fy * I0 / (d / 2) } := by
  unfold calculate_allowable_bending_moment
  rw [hI, hd, hfy]

/-- Witness for C2: the IPE240 row of the sample catalog and the "S235"
steel class give yield strength 235 and allowable moment
235 * 39 / (240 / 2) = 611/8. -/
theorem calculate_allowable_bending_moment_spec_w :
    get_profile_property sampleCatalog ("IPE240") ProfileRow.second_moment_of_area = some 39 ∧
    get_profile_property sampleCatalog ("IPE240") ProfileRow.depth = some 240 ∧
    yield_strength_of ("S235") = some 235 ∧
    calculate_allowable_bending_moment sampleCatalog ("IPE240") ("S235") =
      some { moment_of_inertia := 39, profile_height := 240, yield_strength := 235
             allowable_bending_moment := 235 * 39 / (240 / 2) } :=
  ⟨by with_unfolding_all decide, by with_unfolding_all decide, by with_unfolding_all decide,
   calculate_allowable_bending_moment_spec sampleCatalog ("IPE240") ("S235") 39 240 235
     (by with_unfolding_all decide) (by with_unfolding_all decide)
     (by with_unfolding_all decide)⟩

/-- C7: for every selected profile whose catalog second moment of area is
`I0` (in x10^6 mm^4), the built structure's flexural rigidity is
`E * I` with `E = 210000 * 10^3` kN/m^2 and `I = I0 / 10^6` m^4. -/
theorem create_model_flexural_rigidity (catalog : List ProfileRow) (params : ParamsInput)
    (ss : SystemElements) (I0 : ℚ)
    (hI : get_profile_property catalog params.profile ProfileRow.second_moment_of_area = some I0)
    (hm : create_model catalog params = .ok ss) :
    ss.EI = 210000 * 10 ^ 3 * (I0 / 10 ^ 6) := by
  simp only [create_model] at hm
  rw [hI] at hm
  split at hm
  · exact absurd hm (by simp)
  · rename_i w hw
    injection hw with hw1
    subst hw1
    split at hm
    · exact absurd hm (by simp)
    · injection hm with hm1
      subst hm1
      rfl

/-- Witness for C7: for the sample input (IPE240, I0 = 39) the built model
has EI = 210000 * 10^3 * (39 / 10^6) = 8190. -/
theorem create_model_flexural_rigidity_w :
    get_profile_property sampleCatalog sampleParams.profile
        ProfileRow.second_moment_of_area = some 39 ∧
    create_model sampleCatalog sampleParams = .ok sampleModel ∧
    sampleModel.EI = 210000 * 10 ^ 3 * (39 / 10 ^ 6) :=
  ⟨by with_unfolding_all decide, sample_create_model,
   create_model_flexural_rigidity sampleCatalog sampleParams sampleModel 39
     (by with_unfolding_all decide) sample_create_model⟩

/-- C8: when the self-weight flag is enabled, every element of the built
model carries the uniform load `w * 9.81 / 1000` (catalog mass per length
`w` in kg/m converted to kN/m); when it is disabled, that load is exactly
zero on every element. -/
theorem create_model_self_weight (catalog : List ProfileRow) (params : ParamsInput)
    (ss : SystemElements) (w : ℚ)
    (hw : get_profile_property catalog params.profile ProfileRow.weight = some w)
    (hm : create_model catalog params = .ok ss) :
    ∀ e ∈ ss.elements,
      e.g = if params.include_weight then w * 9.81 / 1000 else 0 := by
  simp only [create_model] at hm
  split at hm
  · exact absurd hm (by simp)
  · rename_i I0 hI0
    split at hm
    · exact absurd hm (by simp)
    · rename_i wt hwt
      injection hm with hm1
      subst hm1
      intro e he
      simp only [List.mem_map] at he
      obtain ⟨ab, _, rfl⟩ := he
      show wt = _
      by_cases hiw : params.include_weight
      · rw [if_pos hiw]
        rw [if_pos hiw, hw] at hwt
        injection hwt with hwt1
        exact hwt1.symm
      · rw [if_neg hiw]
        rw [if_neg hiw] at hwt
        injection hwt with hwt1
        exact hwt1.symm

/-- Witness for C8: with self-weight enabled and IPE240 (31 kg/m), the
single element of the sample model carries g = 31 * 9.81 / 1000. -/
theorem create_model_self_weight_w :
    get_profile_property sampleCatalog sampleParams.profile ProfileRow.weight = some 31 ∧
    create_model sampleCatalog sampleParams = .ok sampleModel ∧
    (∀ e ∈ sampleModel.elements,
      e.g = if sampleParams.include_weight then 31 * 9.81 / 1000 else 0) :=
  ⟨by with_unfolding_all decide, sample_create_model,
   create_model_self_weight sampleCatalog sampleParams sampleModel 31
     (by with_unfolding_all decide) sample_create_model⟩

/-- C4: whenever the external solve fails on the built model, the request
returns exactly the user-facing `UserError` whose message tells the user to
check the supports, and no solved state is returned: the request fails
atomically. -/
theorem create_model_solved_fail_atomic (solver : Solver) (catalog : List ProfileRow)
    (params : ParamsInput) (ss : SystemElements)
    (hm : create_model catalog params = .ok ss)
    (hfail : solver ss = none) :
    create_model_solved solver catalog params = .error (.userError unstableMsg) ∧
    unstableMsg.endsWith ("Check the supports.") = true ∧
    ∀ out, create_model_solved solver catalog params ≠ .ok out := by
  have hstep : create_model_solved solver catalog params =
      match solver ss with
      | none => .error (.userError unstableMsg)
      | some st => .ok (ss, st) := by
    unfold create_model_solved
    rw [hm]
  have hsolved : create_model_solved solver catalog params =
      .error (.userError unstableMsg) := by
    rw [hstep, hfail]
  refine ⟨hsolved, by with_unfolding_all decide, ?_⟩
  intro out h
  rw [hsolved] at h
  exact absurd h (by simp)

/-- Witness for C4: the failing solver on the sample model yields the
`UserError` and never an `ok` result. -/
theorem create_model_solved_fail_atomic_w :
    create_model sampleCatalog sampleParams = .ok sampleModel ∧
    failingSolver sampleModel = none ∧
    (create_model_solved failingSolver sampleCatalog sampleParams =
        .error (.userError unstableMsg) ∧
      unstableMsg.endsWith ("Check the supports.") = true ∧
      ∀ out, create_model_solved failingSolver sampleCatalog sampleParams ≠ .ok out) :=
  ⟨sample_create_model, rfl,
   create_model_solved_fail_atomic failingSolver sampleCatalog sampleParams sampleModel
     sample_create_model rfl⟩

/-- Indexing into the zip of a list with its own tail pairs consecutive
entries. -/
lemma zip_tail_getElem (l : List NodeIn) : ∀ i : ℕ, i + 1 < l.length →
    ∃ a b, l[i]? = some a ∧ l[i + 1]? = some b ∧
      (l.zip l.tail)[i]? = some (a, b) := by
  induction l with
  | nil => intro i h; simp at h
  | cons x xs ih =>
    intro i h
    cases xs with
    | nil => simp at h
    | cons y ys =>
      cases i with
      | zero => exact ⟨x, y, by simp, by simp, by simp⟩
      | succ j =>
        have h1 : j + 1 < (y :: ys).length := by
          simpa [Nat.succ_lt_succ_iff] using h
        obtain ⟨a, b, ha, hb, hz⟩ := ih j h1
        refine ⟨a, b, by simpa using ha, by simpa using hb, ?_⟩
        simpa using hz

/-- C1: for every analysis whose model builds and solves, the view's
maximum moment is the maximum absolute sampled bending moment, the unity
check equals that maximum divided by the absolute allowable bending
moment, and the status is reported as success exactly when UC < 1 and as
error exactly when UC ≥ 1. -/
theorem show_bending_moments_unity_check (solver : Solver) (catalog : List ProfileRow)
    (params : ParamsInput) (ss : SystemElements) (st : SolvedState) (r : AllowableBM)
    (v : BendingMomentView)
    (hm : create_model catalog params = .ok ss)
    (hs : solver ss = some st)
    (hr : calculate_allowable_bending_moment catalog params.profile params.steel_class =
      some r)
    (hok : show_bending_moments solver catalog params = .ok v) :
    v.max_moment = maxAbsOf st.moment_range ∧
    v.uc = maxAbsOf st.moment_range / |r.allowable_bending_moment| ∧
    (v.passed = true ↔ v.uc < 1) ∧
    (v.passed = false ↔ 1 ≤ v.uc) := by
  have hsv1 : create_model_solved solver catalog params =
      match solver ss with
      | none => .error (.userError unstableMsg)
      | some st => .ok (ss, st) := by
    unfold create_model_solved
    rw [hm]
  have hsv : create_model_solved solver catalog params = .ok (ss, st) := by
    rw [hsv1, hs]
  have h2 : show_bending_moments solver catalog params =
      match maxAbsMoment st.moment_range with
      | none => .error .maxOfEmpty
      | some max_moment =>
        match calculate_allowable_bending_moment catalog params.profile params.steel_class with
        | none => .error .lookupFailure
        | some results =>
          .ok { max_moment := max_moment, results := results
                uc := |max_moment / results.allowable_bending_moment|
                passed := decide (|max_moment / results.allowable_bending_moment| < 1) } := by
    unfold show_bending_moments
    rw [hsv]
  have hne : st.moment_range ≠ [] := by
    intro hemp
    rw [h2, hemp] at hok
    exact absurd hok (by simp [maxAbsMoment])
  rw [maxAbsMoment_eq_maxAbsOf st.moment_range hne, hr] at h2
  rw [h2] at hok
  injection hok with hv
  subst hv
  refine ⟨rfl, ?_, ?_, ?_⟩
  · show |maxAbsOf st.moment_range / r.allowable_bending_moment| = _
    rw [abs_div, abs_of_nonneg (maxAbsOf_nonneg st.moment_range)]
  · show decide _ = true ↔ _
    rw [decide_eq_true_eq]
  · show decide _ = false ↔ _
    rw [decide_eq_false_iff_not, not_lt]

/-- Witness for C1: on the sample input the view reports max moment 50,
uc = 50 / (611/8) = 400/611 and success, and the claim's equalities hold. -/
theorem show_bending_moments_unity_check_w :
    create_model sampleCatalog sampleParams = .ok sampleModel ∧
    sampleSolver sampleModel = some sampleState ∧
    calculate_allowable_bending_moment sampleCatalog sampleParams.profile
        sampleParams.steel_class = some sampleAllowable ∧
    show_bending_moments sampleSolver sampleCatalog sampleParams = .ok sampleView ∧
    (sampleView.max_moment = maxAbsOf sampleState.moment_range ∧
      sampleView.uc =
        maxAbsOf sampleState.moment_range / |sampleAllowable.allowable_bending_moment| ∧
      (sampleView.passed = true ↔ sampleView.uc < 1) ∧
      (sampleView.passed = false ↔ 1 ≤ sampleView.uc)) := by
  have hr : calculate_allowable_bending_moment sampleCatalog sampleParams.profile
      sampleParams.steel_class = some sampleAllowable := by
    with_unfolding_all decide
  have hok : show_bending_moments sampleSolver sampleCatalog sampleParams =
      .ok sampleView := by
    with_unfolding_all decide
  exact ⟨sample_create_model, rfl, hr, hok,
    show_bending_moments_unity_check sampleSolver sampleCatalog sampleParams
      sampleModel sampleState sampleAllowable sampleView
      sample_create_model rfl hr hok⟩

/-- C6: for every input with n ≥ 2 nodes, the built model has exactly
n − 1 elements, element i spans node i and node i+1 in declaration order,
and every element carries the structure's flexural rigidity and one common
self-weight distributed load. -/
theorem create_model_element_chain (catalog : List ProfileRow) (params : ParamsInput)
    (ss : SystemElements)
    (hm : create_model catalog params = .ok ss)
    (hn : 2 ≤ params.nodes.length) :
    ss.elements.length = params.nodes.length - 1 ∧
    ∃ g : ℚ, ∀ i : ℕ, i < params.nodes.length - 1 →
      ∃ a b, params.nodes[i]? = some a ∧ params.nodes[i + 1]? = some b ∧
        ss.elements[i]? = some { loc1 := a, loc2 := b, EI := ss.EI, g := g } := by
  simp only [create_model] at hm
  split at hm
  · exact absurd hm (by simp)
  · rename_i I0 hI0
    split at hm
    · exact absurd hm (by simp)
    · rename_i w hw
      injection hm with hm1
      subst hm1
      constructor
      · simp only [List.length_map, List.length_zip, List.length_tail]
        omega
      · refine ⟨w, ?_⟩
        intro i hi
        have hi1 : i + 1 < params.nodes.length := by omega
        obtain ⟨a, b, ha, hb, hz⟩ := zip_tail_getElem params.nodes i hi1
        refine ⟨a, b, ha, hb, ?_⟩
        rw [List.getElem?_map, hz]
        rfl

/-- Witness for C6: the sample input has 2 nodes and the built model has
exactly one element, from node 1 to node 2, carrying EI and the common g. -/
theorem create_model_element_chain_w :
    create_model sampleCatalog sampleParams = .ok sampleModel ∧
    2 ≤ sampleParams.nodes.length ∧
    (sampleModel.elements.length = sampleParams.nodes.length - 1 ∧
      ∃ g : ℚ, ∀ i : ℕ, i < sampleParams.nodes.length - 1 →
        ∃ a b, sampleParams.nodes[i]? = some a ∧ sampleParams.nodes[i + 1]? = some b ∧
          sampleModel.elements[i]? =
            some { loc1 := a, loc2 := b, EI := sampleModel.EI, g := g }) :=
  ⟨sample_create_model, by with_unfolding_all decide,
   create_model_element_chain sampleCatalog sampleParams sampleModel
     sample_create_model (by with_unfolding_all decide)⟩

/-- On a nonnegative demand and positive capacity the unity check is the
plain quotient. -/
lemma unityCheck_eq_div (m cap : ℚ) (hm : 0 ≤ m) (hcap : 0 < cap) :
    unityCheck m cap = m / cap := by
  unfold unityCheck
  rw [abs_div, abs_of_nonneg hm, abs_of_pos hcap]

/-- Counterexample for C5: with demand 100 and the spec's own triple
(I = 3890, depth = 240), decreasing the yield strength from 355 to 235
strictly increases the unity check, so the unity check is not
"monotonically decreasing as yield strength decreases". -/
theorem unity_check_yield_decrease_counterexample :
    unityCheck 100 (allowableBMFormula 355 3890 240) <
      unityCheck 100 (allowableBMFormula 235 3890 240) := by
  have h235 : (0 : ℚ) < allowableBMFormula 235 3890 240 := by
    norm_num [allowableBMFormula]
  have h355 : (0 : ℚ) < allowableBMFormula 355 3890 240 := by
    norm_num [allowableBMFormula]
  rw [unityCheck_eq_div _ _ (by norm_num) h355, unityCheck_eq_div _ _ (by norm_num) h235]
  norm_num [allowableBMFormula]

/-- C5 (amended): with capacity `fy * I / (d / 2)`, the unity check is
monotonically non-decreasing as the demand moment increases with capacity
held fixed; strictly decreasing as the depth decreases with yield
strength, inertia and demand held fixed; and strictly increasing (not
decreasing) as the yield strength decreases with depth, inertia and
demand held fixed. -/
theorem unity_check_monotonicity_amended :
    (∀ m₁ m₂ cap : ℚ, 0 ≤ m₁ → m₁ ≤ m₂ → 0 < cap →
      unityCheck m₁ cap ≤ unityCheck m₂ cap) ∧
    (∀ m fy I0 d₁ d₂ : ℚ, 0 < m → 0 < fy → 0 < I0 → 0 < d₁ → d₁ < d₂ →
      unityCheck m (allowableBMFormula fy I0 d₁) <
        unityCheck m (allowableBMFormula fy I0 d₂)) ∧
    (∀ m fy₁ fy₂ I0 d : ℚ, 0 < m → 0 < fy₁ → fy₁ < fy₂ → 0 < I0 → 0 < d →
      unityCheck m (allowableBMFormula fy₂ I0 d) <
        unityCheck m (allowableBMFormula fy₁ I0 d)) := by
  refine ⟨?_, ?_, ?_⟩
  · intro m₁ m₂ cap hm1 hm12 hcap
    rw [unityCheck_eq_div _ _ hm1 hcap, unityCheck_eq_div _ _ (le_trans hm1 hm12) hcap]
    exact (div_le_div_iff_of_pos_right hcap).mpr hm12
  · intro m fy I0 d₁ d₂ hm hfy hI hd1 hdd
    have hd2 : 0 < d₂ := lt_trans hd1 hdd
    have hcap1 : 0 < allowableBMFormula fy I0 d₁ := by
      unfold allowableBMFormula; positivity
    have hcap2 : 0 < allowableBMFormula fy I0 d₂ := by
      unfold allowableBMFormula; positivity
    rw [unityCheck_eq_div _ _ (le_of_lt hm) hcap1,
      unityCheck_eq_div _ _ (le_of_lt hm) hcap2]
    rw [div_lt_div_iff_of_pos_left hm hcap1 hcap2]
    unfold allowableBMFormula
    rw [div_lt_div_iff_of_pos_left (mul_pos hfy hI) (by positivity) (by positivity)]
    linarith
  · intro m fy₁ fy₂ I0 d hm hfy1 hff hI hd
    have hfy2 : 0 < fy₂ := lt_trans hfy1 hff
    have hcap1 : 0 < allowableBMFormula fy₁ I0 d := by
      unfold allowableBMFormula; positivity
    have hcap2 : 0 < allowableBMFormula fy₂ I0 d := by
      unfold allowableBMFormula; positivity
    rw [unityCheck_eq_div _ _ (le_of_lt hm) hcap2,
      unityCheck_eq_div _ _ (le_of_lt hm) hcap1]
    rw [div_lt_div_iff_of_pos_left hm hcap2 hcap1]
    unfold allowableBMFormula
    rw [div_lt_div_iff_of_pos_right (by positivity)]
    exact mul_lt_mul_of_pos_right hff hI

/-- Witness for the amended C5: concrete instances of all three
monotonicity parts, including the spec's (235, 3890, 240) triple. -/
theorem unity_check_monotonicity_amended_w :
    ((0 : ℚ) ≤ 50 ∧ (50 : ℚ) ≤ 60 ∧ (0 : ℚ) < 10 ∧
      unityCheck 50 10 ≤ unityCheck 60 10) ∧
    unityCheck 100 (allowableBMFormula 235 3890 120) <
      unityCheck 100 (allowableBMFormula 235 3890 240) ∧
    unityCheck 80 (allowableBMFormula 355 500 200) <
      unityCheck 80 (allowableBMFormula 275 500 200) :=
  ⟨⟨by norm_num, by norm_num, by norm_num,
    unity_check_monotonicity_amended.1 50 60 10 (by norm_num) (by norm_num) (by norm_num)⟩,
   unity_check_monotonicity_amended.2.1 100 235 3890 120 240
     (by norm_num) (by norm_num) (by norm_num) (by norm_num) (by norm_num),
   unity_check_monotonicity_amended.2.2 80 275 355 500 200
     (by norm_num) (by norm_num) (by norm_num) (by norm_num) (by norm_num)⟩

/-- The candidate evaluation ignores the profile field of the incoming
params: each loop iteration overwrites it before reading anything. -/
lemma candidateUC_profile_irrel (catalog : List ProfileRow) (solver : Solver)
    (params : ParamsInput) (q p : String) :
    candidateUC catalog solver { params with profile := q } p =
      candidateUC catalog solver params p := by
  cases params
  rfl

/-- The optimizer loop, when every candidate evaluates successfully,
returns the feasible candidates (unity check < 1) in list order, paired
with their rounded unity checks, and leaves the threaded params at the
last candidate. -/
lemma optimizeLoop_spec (catalog : List ProfileRow) (solver : Solver)
    (params : ParamsInput) (u : String → ℚ) :
    ∀ (ps : List String) (q : String) (acc : List (String × ℚ)),
      (∀ p ∈ ps, candidateUC catalog solver params p = .ok (u p)) →
      optimizeLoop catalog solver params.steel_class ps { params with profile := q } acc =
        .ok ({ params with profile := ps.getLastD q },
          acc ++ (ps.filter (fun p => decide (u p < 1))).map
            (fun p => (p, pyRound2 (u p)))) := by
  intro ps
  induction ps with
  | nil =>
    intro q acc hu
    simp [optimizeLoop]
  | cons p rest ih =>
    intro q acc hu
    have hp := hu p (List.mem_cons_self p rest)
    unfold candidateUC at hp
    split at hp
    · exact absurd hp (by simp)
    · rename_i ss st hsv
      split at hp
      · exact absurd hp (by simp)
      · rename_i max_moment hmx
        split at hp
        · exact absurd hp (by simp)
        · rename_i r hca
          injection hp with hup
          have hrest : ∀ p1 ∈ rest, candidateUC catalog solver params p1 = .ok (u p1) :=
            fun p1 hp1 => hu p1 (List.mem_cons_of_mem p hp1)
          simp only [optimizeLoop, params_set_set, hsv, hmx, hca]
          simp only [hup, List.getLastD_cons, List.filter_cons]
          by_cases hcond : u p < 1
          · rw [if_pos hcond, if_pos (by simpa using hcond)]
            rw [ih p (acc ++ [(p, pyRound2 (u p))]) hrest]
            simp
          · rw [if_neg hcond, if_neg (by simpa using hcond)]
            exact ih p acc hrest

/-- C3: when every catalog profile of the family evaluates to a unity
check (the model builds and solves for each candidate), the optimizer
returns exactly the profiles whose unity check is < 1, in catalog order,
paired with their (rounded) unity checks; profiles with UC ≥ 1 are
omitted. Re-running with identical input yields the same list, since
`optimize_profile` is a function of its inputs. -/
theorem optimize_profile_feasible_subset (catalog : List ProfileRow) (solver : Solver)
    (params : ParamsInput) (u : String → ℚ)
    (hu : ∀ p ∈ get_profile_types catalog,
      candidateUC catalog solver params p = .ok (u p)) :
    optimize_profile catalog solver params =
      .ok ({ params with profile := (get_profile_types catalog).getLastD params.profile },
        ((get_profile_types catalog).filter (fun p => decide (u p < 1))).map
          (fun p => (p, pyRound2 (u p)))) := by
  unfold optimize_profile
  have h := optimizeLoop_spec catalog solver params u (get_profile_types catalog)
    params.profile [] hu
  rw [params_set_self] at h
  simpa using h

/-- Witness for C3: on the sample input IPE80 has UC = 400/47 ≥ 1 and is
omitted, IPE240 has UC = 400/611 < 1 and is returned with its rounded
value; the result is exactly the filtered catalog in order. -/
theorem optimize_profile_feasible_subset_w :
    (∀ p ∈ get_profile_types sampleCatalog,
      candidateUC sampleCatalog sampleSolver sampleParams p = .ok (sampleU p)) ∧
    optimize_profile sampleCatalog sampleSolver sampleParams =
      .ok ({ sampleParams with
              profile := (get_profile_types sampleCatalog).getLastD sampleParams.profile },
        ((get_profile_types sampleCatalog).filter (fun p => decide (sampleU p < 1))).map
          (fun p => (p, pyRound2 (sampleU p)))) := by
  have hu : ∀ p ∈ get_profile_types sampleCatalog,
      candidateUC sampleCatalog sampleSolver sampleParams p = .ok (sampleU p) := by
    with_unfolding_all decide
  exact ⟨hu, optimize_profile_feasible_subset sampleCatalog sampleSolver sampleParams
    sampleU hu⟩

/-- A successful optimizer loop leaves the threaded params with the
profile field overwritten by the last candidate. -/
lemma optimizeLoop_ok_last (catalog : List ProfileRow) (solver : Solver) (sc : String) :
    ∀ (ps : List String) (params : ParamsInput) (acc : List (String × ℚ))
      (fp : ParamsInput) (res : List (String × ℚ)),
      optimizeLoop catalog solver sc ps params acc = .ok (fp, res) →
      fp = { params with profile := ps.getLastD params.profile } := by
  intro ps
  induction ps with
  | nil =>
    intro params acc fp res h
    simp only [optimizeLoop] at h
    injection h with h1
    rw [List.getLastD, params_set_self]
    exact (congrArg Prod.fst h1).symm
  | cons p rest ih =>
    intro params acc fp res h
    simp only [optimizeLoop] at h
    split at h
    · exact absurd h (by simp)
    · rename_i ss st hsv
      split at h
      · exact absurd h (by simp)
      · rename_i max_moment hmx
        split at h
        · exact absurd h (by simp)
        · rename_i r hca
          have := ih { params with profile := p } _ fp res h
          rw [this, params_set_set, List.getLastD_cons]

/-- C9: the optimizer mutates its input configuration in place: after a
successful run on a nonempty catalog, the params object's profile field
equals the last profile name of the family's catalog. -/
theorem optimize_profile_mutates_params (catalog : List ProfileRow) (solver : Solver)
    (params fp : ParamsInput) (res : List (String × ℚ))
    (hne : get_profile_types catalog ≠ [])
    (hok : optimize_profile catalog solver params = .ok (fp, res)) :
    fp.profile = (get_profile_types catalog).getLast hne := by
  have h := optimizeLoop_ok_last catalog solver params.steel_class
    (get_profile_types catalog) params [] fp res hok
  rw [h]
  show (get_profile_types catalog).getLastD params.profile = _
  exact getLastD_eq_getLast _ hne _

/-- Witness for C9: after optimizing the sample input, the params profile
is "IPE240", the last profile of the sample catalog, although the caller
had selected "IPE240" only by coincidence of the sample; the concrete
final params differ from the input in no other field. -/
theorem optimize_profile_mutates_params_w :
    optimize_profile sampleCatalog sampleSolver sampleParams =
      .ok (sampleParamsFinal, [("IPE240", 13 / 20)]) ∧
    sampleParamsFinal.profile = (get_profile_types sampleCatalog).getLast sample_profiles_ne := by
  have hok : optimize_profile sampleCatalog sampleSolver sampleParams =
      .ok (sampleParamsFinal, [("IPE240", 13 / 20)]) := by
    with_unfolding_all decide
  exact ⟨hok, optimize_profile_mutates_params sampleCatalog sampleSolver sampleParams
    sampleParamsFinal [("IPE240", 13 / 20)] sample_profiles_ne hok⟩

/-- C10: two parameter sets identical except for the initially selected
profile produce the same optimization outcome (same feasible profiles, in
the same order, with the same unity-check values, and the same error if
one occurs), because the loop overwrites the profile field before every
evaluation. -/
theorem optimize_profile_initial_profile_irrelevant (catalog : List ProfileRow)
    (solver : Solver) (params : ParamsInput) (q : String) :
    (optimize_profile catalog solver { params with profile := q }).map Prod.snd =
      (optimize_profile catalog solver params).map Prod.snd := by
  show (optimizeLoop catalog solver params.steel_class (get_profile_types catalog)
      { params with profile := q } []).map Prod.snd =
    (optimizeLoop catalog solver params.steel_class (get_profile_types catalog)
      params []).map Prod.snd
  cases hn : get_profile_types catalog with
  | nil => rfl
  | cons p rest =>
    have h : optimizeLoop catalog solver params.steel_class (p :: rest)
        { params with profile := q } [] =
        optimizeLoop catalog solver params.steel_class (p :: rest) params [] := by
      simp only [optimizeLoop, params_set_set]
    rw [h]

end BeamApp
